import Mathlib

/-!
Verification of the ARABIC-MANGA Flask image-translation service.

The definitions below are a shallow embedding of `src/config.py` and
`src/flask_app.py`.  External collaborators (OCR engine, translator backend,
inpainter, renderer, container extractor, PNG encoder) live outside the two
embedded files; they are modelled as abstract function fields of a `Services`
record, so every theorem quantifies over the environment the Flask code runs
in.  Exceptions raised by a collaborator are modelled by `Option`/`Except`
(`none` / `.error` = the call raised).
-/

/-! ## Configuration (`src/config.py`) -/

namespace Config

/-- `Config.MAX_FILE_SIZE = 200 * 1024 * 1024` (bytes). -/
def MAX_FILE_SIZE : Nat := 200 * 1024 * 1024

/-- `Config.MAX_BATCH_SIZE = 50`. -/
def MAX_BATCH_SIZE : Nat := 50

/-- `Config.OCR_CONFIDENCE_THRESHOLD = 0.3`. -/
def OCR_CONFIDENCE_THRESHOLD : ℚ := 0.3

/-- `Config.MIN_FONT_SIZE = 8`. -/
def MIN_FONT_SIZE : Nat := 8

/-- `Config.MAX_FONT_SIZE = 200`. -/
def MAX_FONT_SIZE : Nat := 200

/-- `Config.FONT_SIZE_PADDING = 0.1` (10% padding around text). -/
def FONT_SIZE_PADDING : ℚ := 0.1

/-- `Config.SUPPORTED_IMAGE_FORMATS` (a Python set; membership is what matters,
so it is embedded as a list of its elements). -/
def SUPPORTED_IMAGE_FORMATS : List String :=
  [".png", ".jpg", ".jpeg", ".webp", ".bmp", ".tiff", ".gif"]

/-- `Config.SUPPORTED_PDF_FORMATS`. -/
def SUPPORTED_PDF_FORMATS : List String := [".pdf"]

/-- `Config.SUPPORTED_ARCHIVE_FORMATS`. -/
def SUPPORTED_ARCHIVE_FORMATS : List String := [".zip", ".rar", ".cbz", ".cbr"]

/-- `Config.get_supported_formats`: union of the three format sets. -/
def get_supported_formats : List String :=
  SUPPORTED_IMAGE_FORMATS ++ SUPPORTED_PDF_FORMATS ++ SUPPORTED_ARCHIVE_FORMATS

end Config

/-! ## Upload-handler helpers (`src/flask_app.py`) -/

/-- The `ALLOWED_EXTENSIONS` set hard-coded in `allowed_file`
(`src/flask_app.py:120`). -/
def ALLOWED_EXTENSIONS : List String :=
  ["png", "jpg", "jpeg", "gif", "bmp", "tiff", "webp", "pdf", "zip", "rar", "cbz", "cbr"]

/-- Python's `s.rsplit('.', 1)`: split at the LAST dot.  Returns
`(before-last-dot, some after-last-dot)`, or `(s, none)` when `s` has no dot
(Python then returns the one-element list `[s]`). -/
def rsplitDot (s : String) : String × Option String :=
  match s.data.reverse.span (fun c => c ≠ '.') with
  | (_, []) => (s, none)
  | (extRev, _ :: stemRev) => (⟨stemRev.reverse⟩, some ⟨extRev.reverse⟩)

/-- Python's `str.lower()`, written as a per-character map over the string's
character list (extensionally `String.toLower`, but in a form the kernel can
evaluate). -/
def strLower (s : String) : String := ⟨s.data.map Char.toLower⟩

/-- `allowed_file` (`src/flask_app.py:118-121`):
`'.' in filename and filename.rsplit('.', 1)[1].lower() in ALLOWED_EXTENSIONS`. -/
def allowed_file (filename : String) : Bool :=
  decide ('.' ∈ filename.data) &&
    (match (rsplitDot filename).2 with
     | some ext => ALLOWED_EXTENSIONS.contains (strLower ext)
     | none => false)

/-! ## Data model for the pipeline -/

/-- A bounding box, `region['bbox']` (opaque pixel rectangle; the Flask code
never inspects its components, only passes it through). -/
structure BBox where
  x : Int
  y : Int
  w : Int
  h : Int
deriving DecidableEq, Repr

/-- A text-region dict as produced by the OCR service and consumed by
`process_file`: keys `'text'`, `'bbox'` and an OPTIONAL `'confidence'`
(the code reads it with `region.get('confidence', 1.0)`). -/
structure TextRegion where
  text : String
  bbox : BBox
  confidence : Option ℚ
deriving DecidableEq, Repr

/-- Errors the pipeline can raise (Python exceptions propagating out of the
service calls inside `process_file`). -/
inductive PErr where
  | extractFailed
  | inpaintFailed
  | renderFailed
deriving DecidableEq, Repr

/-- The external collaborators of `src/flask_app.py`, abstracted:
`file_handler.extract_images`, `text_extractor.extract_text`,
`translator.translate`, `image_processor.remove_text`,
`arabic_renderer.render_text`, and saving a PIL image as a PNG temp file.
`Option`/`Except` `none`/`error` model the call raising an exception. -/
structure Services (Img File : Type) where
  extract_images : String → Except PErr (List Img)
  extract_text : Img → List TextRegion
  translate : String → Option String
  remove_text : Img → List TextRegion → Option Img
  render_text : Img → List TextRegion → Option Img
  savePNG : Img → File

/-- The per-region translation loop of `process_file`
(`src/flask_app.py:142-154`): on success append
`{'text': translated, 'bbox': region['bbox'],
'confidence': region.get('confidence', 1.0)}`; on exception append the
original `region` dict unchanged. -/
def translateRegions (tr : String → Option String) (regions : List TextRegion) :
    List TextRegion :=
  regions.map (fun r =>
    match tr r.text with
    | some translated =>
        { text := translated, bbox := r.bbox, confidence := some (r.confidence.getD 1) }
    | none => r)

/-- The body of the `for image_data in images` loop of `process_file`
(`src/flask_app.py:130-165`): zero regions → save the original as PNG;
otherwise translate each region, inpaint with the ORIGINAL regions, render the
TRANSLATED regions on the cleaned image, save the final image as PNG.
An exception from inpainting or rendering propagates (`.error`). -/
def processImage {Img File : Type} (S : Services Img File) (img : Img) :
    Except PErr File :=
  let text_regions := S.extract_text img
  if text_regions.isEmpty then
    .ok (S.savePNG img)
  else
    let translated_regions := translateRegions S.translate text_regions
    match S.remove_text img text_regions with
    | none => .error .inpaintFailed
    | some cleaned =>
      match S.render_text cleaned translated_regions with
      | none => .error .renderFailed
      | some final => .ok (S.savePNG final)

/-- Runs the loop of `process_file` over the extracted images, tracking BOTH
the list of temp PNG files created so far AND the first exception: when one
image's processing raises, Python has already written the temp files of the
earlier images to disk, and the exception aborts the loop. -/
def processImagesAcc {Img File : Type} (S : Services Img File) :
    List Img → List File × Option PErr
  | [] => ([], none)
  | img :: rest =>
    match processImage S img with
    | .ok f =>
      let r := processImagesAcc S rest
      (f :: r.1, r.2)
    | .error e => ([], some e)

/-- `process_file` (`src/flask_app.py:123-171`): extract images, process each
in order, return the list of processed temp-file paths; any exception is
logged and re-raised unchanged. -/
def process_file {Img File : Type} (S : Services Img File) (path : String) :
    Except PErr (List File) :=
  match S.extract_images path with
  | .error e => .error e
  | .ok images =>
    match (processImagesAcc S images).2 with
    | some e => .error e
    | none => .ok (processImagesAcc S images).1

/-- The possible responses of the `/upload` route. -/
inductive UploadResponse (File : Type) where
  | noFileSelected
  | invalidFileType
  | processingError (e : PErr)
  | singleFile (f : File) (downloadName : String)
  | zipArchive (entries : List (String × File)) (downloadName : String)
deriving DecidableEq, Repr

/-- The ZIP-building loop (`src/flask_app.py:88-90`):
`zip_file.write(file_path, f"translated_{i+1}.png")` for each processed file,
in order. -/
def zipEntries {File : Type} (fs : List File) : List (String × File) :=
  fs.enum.map (fun p => ("translated_" ++ toString (p.1 + 1) ++ ".png", p.2))

/-- One run of the `/upload` handler: the HTTP-level response plus an account
of the temporary files the request created and deleted.  `createdTemps` /
`deletedTemps` are the intermediate processed-image temp files;
`inputCreated` / `inputDeleted` track the saved upload `temp_input`. -/
structure RunResult (File : Type) where
  response : UploadResponse File
  createdTemps : List File
  deletedTemps : List File
  inputCreated : Bool
  inputDeleted : Bool
deriving DecidableEq, Repr

/-- `upload_file` (`src/flask_app.py:57-116`), with temp-file accounting.
`sf` is werkzeug's `secure_filename` (external), `hasFile` is
`'file' in request.files`, `raw` is `file.filename`.
In the allowed branch the handler saves the upload to `temp_input`, calls
`process_file`, then: exactly one processed file → `send_file` with
`download_name = f"translated_{filename}"` (the processed temp file is NOT
unlinked); otherwise → build a ZIP named
`f"translated_{filename.rsplit('.', 1)[0]}.zip"` and unlink every processed
file; an exception → flash the error; `finally:` always unlinks `temp_input`. -/
def upload_run {Img File : Type} (S : Services Img File) (sf : String → String)
    (hasFile : Bool) (raw : String) : RunResult File :=
  if hasFile = false then ⟨.noFileSelected, [], [], false, false⟩
  else if raw = "" then ⟨.noFileSelected, [], [], false, false⟩
  else if allowed_file raw then
    let filename := sf raw
    match S.extract_images filename with
    | .error e => ⟨.processingError e, [], [], true, true⟩
    | .ok images =>
      let acc := processImagesAcc S images
      match acc.2 with
      | some e => ⟨.processingError e, acc.1, [], true, true⟩
      | none =>
        match acc.1 with
        | [f] => ⟨.singleFile f ("translated_" ++ filename), [f], [], true, true⟩
        | fs =>
          ⟨.zipArchive (zipEntries fs)
              ("translated_" ++ (rsplitDot filename).1 ++ ".zip"),
            fs, fs, true, true⟩
  else ⟨.invalidFileType, [], [], false, false⟩

/-- The response the `/upload` route returns to the client. -/
def upload_file {Img File : Type} (S : Services Img File) (sf : String → String)
    (hasFile : Bool) (raw : String) : UploadResponse File :=
  (upload_run S sf hasFile raw).response

/-- Whether a response shows that the handler attempted processing (reached
the `process_file` call) rather than rejecting the upload outright. -/
def attempted {File : Type} : UploadResponse File → Bool
  | .noFileSelected => false
  | .invalidFileType => false
  | _ => true

/-! ## Helper lemmas -/

/-- Prepending a dot to an extension string is injective. -/
theorem dot_append_inj (a b : String) : "." ++ a = "." ++ b ↔ a = b := by
  constructor
  · intro h
    have h2 : ("." ++ a).data = ("." ++ b).data := by rw [h]
    simp [String.data_append] at h2
    exact String.ext h2
  · intro h; rw [h]

/-- The translation loop yields one output region per input region. -/
theorem translateRegions_length (tr : String → Option String)
    (rs : List TextRegion) : (translateRegions tr rs).length = rs.length := by
  simp [translateRegions]

/-- The translation loop preserves every bounding box, in both the success
and the exception branch of the loop body. -/
theorem translateRegions_map_bbox (tr : String → Option String)
    (rs : List TextRegion) :
    (translateRegions tr rs).map TextRegion.bbox = rs.map TextRegion.bbox := by
  simp only [translateRegions, List.map_map]
  refine List.map_congr_left (fun r _ => ?_)
  cases h : tr r.text <;> simp [Function.comp, h]

/-- If every image before `img` processes fine and `img` raises `e`, the loop
of `process_file` stops with exception `e`. -/
theorem processImagesAcc_append_error {Img File : Type} (S : Services Img File)
    (pre : List Img) (img : Img) (rest : List Img) (e : PErr)
    (hpre : ∀ i ∈ pre, ∃ f : File, processImage S i = .ok f)
    (himg : processImage S img = .error e) :
    (processImagesAcc S (pre ++ img :: rest)).2 = some e := by
  induction pre with
  | nil => simp [processImagesAcc, himg]
  | cons a pre ih =>
    obtain ⟨f, hf⟩ := hpre a (by simp)
    have ih2 := ih (fun i hi => hpre i (by simp [hi]))
    simp [processImagesAcc, hf, ih2]

/-- Inversion: a successful `process_file` run means extraction succeeded and
the per-image loop finished without an exception. -/
theorem process_file_ok_inv {Img File : Type} (S : Services Img File)
    (p : String) (fs : List File) (h : process_file S p = .ok fs) :
    ∃ imgs, S.extract_images p = .ok imgs ∧
      (processImagesAcc S imgs).2 = none ∧ (processImagesAcc S imgs).1 = fs := by
  unfold process_file at h
  cases hext : S.extract_images p with
  | error e => rw [hext] at h; simp at h
  | ok imgs =>
    rw [hext] at h
    cases hacc : (processImagesAcc S imgs).2 with
    | some e => simp [hacc] at h
    | none => simp [hacc] at h; exact ⟨imgs, rfl, hacc, h⟩

/-! ## Claims -/

/-- Claim C9: the configuration constants have the spec's default values:
`MAX_FILE_SIZE = 200 * 1024 * 1024` bytes, `OCR_CONFIDENCE_THRESHOLD = 0.3`,
`FONT_SIZE_PADDING = 0.1`, and `[MIN_FONT_SIZE, MAX_FONT_SIZE]` is a
non-empty range. -/
theorem config_defaults :
    Config.MAX_FILE_SIZE = 200 * 1024 * 1024 ∧
    Config.OCR_CONFIDENCE_THRESHOLD = 3 / 10 ∧
    Config.FONT_SIZE_PADDING = 1 / 10 ∧
    Config.MIN_FONT_SIZE ≤ Config.MAX_FONT_SIZE := by
  refine ⟨rfl, ?_, ?_, ?_⟩
  · norm_num [Config.OCR_CONFIDENCE_THRESHOLD]
  · norm_num [Config.FONT_SIZE_PADDING]
  · norm_num [Config.MIN_FONT_SIZE, Config.MAX_FONT_SIZE]

/-- Claim C10: `allowed_file`'s hard-coded `ALLOWED_EXTENSIONS` and
`Config.get_supported_formats` denote the same extension set: for every
string `e`, `e ∈ ALLOWED_EXTENSIONS ↔ "." ++ e ∈ Config.get_supported_formats`. -/
theorem allowed_matches_config (e : String) :
    e ∈ ALLOWED_EXTENSIONS ↔ ("." ++ e) ∈ Config.get_supported_formats := by
  have h1 : ("." ++ e) ∈ ALLOWED_EXTENSIONS.map (fun s => "." ++ s) ↔
      e ∈ ALLOWED_EXTENSIONS := by
    constructor
    · intro h
      rcases List.mem_map.mp h with ⟨a, ha, hae⟩
      exact (dot_append_inj a e).mp hae ▸ ha
    · intro h
      exact List.mem_map.mpr ⟨e, h, rfl⟩
  have h2 : (ALLOWED_EXTENSIONS.map (fun s => "." ++ s)).Perm
      Config.get_supported_formats := by decide
  rw [← h1]
  exact ⟨fun h => h2.mem_iff.mp h, fun h => h2.mem_iff.mpr h⟩

/-- Claim C5: the per-region translation loop produces exactly one output
region per input region, and the i-th output's bounding box equals the i-th
input's bounding box, whatever the translator does (success or exception on
each region). -/
theorem translateRegions_geometry (tr : String → Option String)
    (rs : List TextRegion) :
    (translateRegions tr rs).length = rs.length ∧
    (translateRegions tr rs).map TextRegion.bbox = rs.map TextRegion.bbox ∧
    ∀ i : Nat, ((translateRegions tr rs)[i]?).map TextRegion.bbox =
      (rs[i]?).map TextRegion.bbox := by
  refine ⟨translateRegions_length tr rs, translateRegions_map_bbox tr rs, ?_⟩
  intro i
  have h := congrArg (fun l => l[i]?) (translateRegions_map_bbox tr rs)
  simpa [List.getElem?_map] using h

/-- Claim C6: an image whose detection returns zero regions skips
translation/inpainting/rendering (the result does not depend on those three
services at all) and contributes the original image, re-encoded as PNG, to
the bundle. -/
theorem zero_regions_passthrough {Img File : Type} (S : Services Img File)
    (img : Img) (h : S.extract_text img = []) :
    processImage S img = .ok (S.savePNG img) ∧
    (∀ (tr : String → Option String) (rm rd : Img → List TextRegion → Option Img),
      processImage { S with translate := tr, remove_text := rm, render_text := rd } img
        = .ok (S.savePNG img)) ∧
    (∀ path, S.extract_images path = .ok [img] →
      process_file S path = .ok [S.savePNG img]) := by
  refine ⟨?_, ?_, ?_⟩
  · simp [processImage, h]
  · intro tr rm rd
    simp [processImage, h]
  · intro path hext
    have h1 : processImage S img = .ok (S.savePNG img) := by simp [processImage, h]
    simp [process_file, hext, processImagesAcc, h1]

/-- A pass-through environment: one extracted image, no text detected. -/
def S6 : Services Nat Nat where
  extract_images := fun _ => .ok [4]
  extract_text := fun _ => []
  translate := fun _ => none
  remove_text := fun _ _ => none
  render_text := fun _ _ => none
  savePNG := fun i => i

/-- Witness for C6 at a concrete environment. -/
theorem zero_regions_passthrough_witness :
    process_file S6 "x.png" = .ok [4] :=
  (zero_regions_passthrough S6 4 rfl).2.2 "x.png" rfl

/-- The regions of the C4/C5 witness environment: two detected regions, the
second of which the translator will fail on. -/
def rsW : List TextRegion :=
  [⟨"hello", ⟨0, 0, 10, 10⟩, some (9 / 10)⟩, ⟨"world", ⟨5, 20, 30, 12⟩, none⟩]

/-- Environment for the C4 witness: one image (7) with regions `rsW`;
translation raises on "world"; inpainting maps image 7 to 8; rendering maps
image 8 to 9; saving multiplies by 10. -/
def S4 : Services Nat Nat where
  extract_images := fun _ => .ok [7]
  extract_text := fun i => if i = 7 then rsW else []
  translate := fun s => if s = "world" then none else some ("AR" ++ s)
  remove_text := fun i _ => if i = 7 then some 8 else none
  render_text := fun c _ => if c = 8 then some 9 else none
  savePNG := fun i => i * 10

/-- Claim C4: a translation failure on one region of K does not abort the
batch: the failed region is kept with its original text, all K regions (same
bounding boxes) are passed to rendering, and the request still succeeds. -/
theorem translation_failure_isolated {Img File : Type} (S : Services Img File)
    (sf : String → String) (raw : String) (img : Img) (rs : List TextRegion)
    (j : Nat) (cleaned final : Img)
    (hraw : raw ≠ "") (hallow : allowed_file raw = true)
    (hj : j < rs.length)
    (hfail : S.translate (rs[j]).text = none)
    (hdet : S.extract_text img = rs) (hne : rs ≠ [])
    (hinp : S.remove_text img rs = some cleaned)
    (hrnd : S.render_text cleaned (translateRegions S.translate rs) = some final)
    (hext : S.extract_images (sf raw) = .ok [img]) :
    (translateRegions S.translate rs).length = rs.length ∧
    (translateRegions S.translate rs)[j]? = some (rs[j]) ∧
    (translateRegions S.translate rs).map TextRegion.bbox = rs.map TextRegion.bbox ∧
    processImage S img = .ok (S.savePNG final) ∧
    upload_file S sf true raw = .singleFile (S.savePNG final) ("translated_" ++ sf raw) := by
  have hgetj : (translateRegions S.translate rs)[j]? = some (rs[j]) := by
    have hr : rs[j]? = some (rs[j]) := List.getElem?_eq_getElem hj
    simp [translateRegions, List.getElem?_map, hr, hfail]
  have hempty : rs.isEmpty = false := by
    cases rs with
    | nil => exact absurd rfl hne
    | cons a l => rfl
  have hproc : processImage S img = .ok (S.savePNG final) := by
    simp [processImage, hdet, hempty, hinp, hrnd]
  have hacc : processImagesAcc S [img] = ([S.savePNG final], none) := by
    simp [processImagesAcc, hproc]
  refine ⟨translateRegions_length S.translate rs, hgetj,
    translateRegions_map_bbox S.translate rs, hproc, ?_⟩
  simp [upload_file, upload_run, hraw, hallow, hext, hacc]

/-- Witness for C4: in environment `S4` the "world" region fails to
translate, yet the request succeeds with a single translated file. -/
theorem translation_failure_isolated_witness :
    upload_file S4 id true "page.png" =
      .singleFile 90 ("translated_" ++ "page.png") :=
  (translation_failure_isolated S4 id "page.png" 7 rsW 1 8 9
    (by decide) (by decide) (by decide) (by decide) rfl (by decide)
    rfl rfl rfl).2.2.2.2

/-- A trivial environment (no images extracted, nothing detected). -/
def S0 : Services Nat Nat where
  extract_images := fun _ => .ok []
  extract_text := fun _ => []
  translate := fun _ => none
  remove_text := fun _ _ => none
  render_text := fun _ _ => none
  savePNG := fun i => i

/-- Claim C7 (amended): the handler attempts processing exactly on the
filenames `allowed_file` accepts (final extension, lowercased, in
`ALLOWED_EXTENSIONS`); a non-empty disallowed filename gets the
"Invalid file type" response; an EMPTY filename gets "No file selected"
instead. -/
theorem upload_gatekeeping {Img File : Type} (S : Services Img File)
    (sf : String → String) (raw : String) :
    attempted (upload_file S sf true raw) = allowed_file raw ∧
    (allowed_file raw = true ↔
      ('.' ∈ raw.data ∧ ∃ ext, (rsplitDot raw).2 = some ext ∧
        ALLOWED_EXTENSIONS.contains (strLower ext) = true)) ∧
    (raw ≠ "" → allowed_file raw = false →
      upload_file S sf true raw = .invalidFileType) ∧
    (raw = "" → upload_file S sf true raw = .noFileSelected) := by
  refine ⟨?_, ⟨?_, ?_⟩, ?_, ?_⟩
  · by_cases hr : raw = ""
    · subst hr
      have hfalse : allowed_file "" = false := rfl
      simp [upload_file, upload_run, attempted, hfalse]
    · by_cases ha : allowed_file raw = true
      · cases hext : S.extract_images (sf raw) with
        | error e => simp [upload_file, upload_run, hr, ha, hext, attempted]
        | ok imgs =>
          cases hacc : (processImagesAcc S imgs).2 with
          | some e =>
            simp [upload_file, upload_run, hr, ha, hext, hacc, attempted]
          | none =>
            rcases hfs : (processImagesAcc S imgs).1 with _ | ⟨a, _ | ⟨b, t⟩⟩ <;>
              simp [upload_file, upload_run, hr, ha, hext, hacc, hfs, attempted]
      · have ha2 : allowed_file raw = false := by simpa using ha
        simp [upload_file, upload_run, hr, ha2, attempted]
  · intro h
    unfold allowed_file at h
    rw [Bool.and_eq_true] at h
    obtain ⟨h1, h2⟩ := h
    refine ⟨of_decide_eq_true h1, ?_⟩
    cases hsplit : (rsplitDot raw).2 with
    | none => rw [hsplit] at h2; simp at h2
    | some ext => rw [hsplit] at h2; exact ⟨ext, rfl, h2⟩
  · rintro ⟨hdot, ext, hsplit, hmem⟩
    have hmem2 : strLower ext ∈ ALLOWED_EXTENSIONS := by simpa using hmem
    simp [allowed_file, hdot, hsplit, hmem2]
  · intro hr ha
    simp [upload_file, upload_run, hr, ha]
  · intro hr
    subst hr
    simp [upload_file, upload_run]

/-- Witness for C7: a `.txt` upload is rejected as an invalid file type. -/
theorem upload_gatekeeping_witness :
    upload_file S0 id true "doc.txt" = UploadResponse.invalidFileType :=
  (upload_gatekeeping S0 id "doc.txt").2.2.1 (by decide) (by decide)

/-- Counterexample to C7 as stated: the empty filename is not accepted, but
its rejection message is "No file selected", not "Invalid file type". -/
theorem empty_filename_counterexample :
    upload_file S0 id true "" = UploadResponse.noFileSelected ∧
    upload_file S0 id true "" ≠ UploadResponse.invalidFileType := by
  exact ⟨rfl, by decide⟩

/-- The ZIP entries carry exactly the processed files, in bundle order. -/
theorem zipEntries_map_snd {File : Type} (fs : List File) :
    (zipEntries fs).map Prod.snd = fs := by
  simp only [zipEntries, List.map_map]
  have h : (Prod.snd ∘ fun p : Nat × File =>
      ("translated_" ++ toString (p.1 + 1) ++ ".png", p.2)) = Prod.snd := rfl
  rw [h, List.enum_map_snd]

/-- The ZIP entry names are `translated_1.png .. translated_N.png`. -/
theorem zipEntries_map_fst {File : Type} (fs : List File) :
    (zipEntries fs).map Prod.fst =
      (List.range fs.length).map
        (fun i => "translated_" ++ toString (i + 1) ++ ".png") := by
  simp only [zipEntries, List.map_map]
  have h : (Prod.fst ∘ fun p : Nat × File =>
        ("translated_" ++ toString (p.1 + 1) ++ ".png", p.2))
      = (fun i => "translated_" ++ toString (i + 1) ++ ".png") ∘ Prod.fst := rfl
  rw [h, ← List.map_map, List.enum_map_fst]

/-- Claim C1 (amended): one processed image → that file as an attachment
named `translated_<original filename>` (the FULL filename, extension
included, not the stem); two or more → a ZIP named `translated_<stem>.zip`
whose entries are exactly the processed files in bundle order, named
`translated_1.png .. translated_N.png`. -/
theorem upload_response_naming {Img File : Type} (S : Services Img File)
    (sf : String → String) (raw : String)
    (hraw : raw ≠ "") (hallow : allowed_file raw = true) :
    (∀ f : File, process_file S (sf raw) = .ok [f] →
      upload_file S sf true raw = .singleFile f ("translated_" ++ sf raw)) ∧
    (∀ fs : List File, process_file S (sf raw) = .ok fs → 2 ≤ fs.length →
      upload_file S sf true raw =
        .zipArchive (zipEntries fs)
          ("translated_" ++ (rsplitDot (sf raw)).1 ++ ".zip") ∧
      (zipEntries fs).map Prod.snd = fs ∧
      (zipEntries fs).map Prod.fst =
        (List.range fs.length).map
          (fun i => "translated_" ++ toString (i + 1) ++ ".png")) := by
  constructor
  · intro f hok
    obtain ⟨imgs, hext, hacc2, hacc1⟩ := process_file_ok_inv S (sf raw) [f] hok
    simp [upload_file, upload_run, hraw, hallow, hext, hacc2, hacc1]
  · intro fs hok hlen
    obtain ⟨imgs, hext, hacc2, hacc1⟩ := process_file_ok_inv S (sf raw) fs hok
    refine ⟨?_, zipEntries_map_snd fs, zipEntries_map_fst fs⟩
    rcases fs with _ | ⟨a, _ | ⟨b, t⟩⟩
    · simp at hlen
    · simp at hlen
    · simp [upload_file, upload_run, hraw, hallow, hext, hacc2, hacc1]

/-- Environment for the C1 witness: two extracted images, no text in either. -/
def S2img : Services Nat Nat where
  extract_images := fun _ => .ok [1, 2]
  extract_text := fun _ => []
  translate := fun _ => none
  remove_text := fun _ _ => none
  render_text := fun _ _ => none
  savePNG := fun i => i

/-- Witness for C1 on the two-output path. -/
theorem upload_response_naming_witness :
    upload_file S2img id true "a.png" =
      .zipArchive (zipEntries [1, 2])
        ("translated_" ++ (rsplitDot (id "a.png")).1 ++ ".zip") :=
  ((upload_response_naming S2img id "a.png" (by decide) (by decide)).2
    [1, 2] rfl (by decide)).1

/-- Environment producing exactly one processed file (105). -/
def S1 : Services Nat Nat where
  extract_images := fun _ => .ok [5]
  extract_text := fun _ => []
  translate := fun _ => none
  remove_text := fun _ _ => none
  render_text := fun _ _ => none
  savePNG := fun i => i + 100

/-- Counterexample to C1 as stated: for upload `photo.jpg` the single-output
attachment is named `translated_photo.jpg` (full original filename), which
differs from the claimed `translated_<stem>` = `translated_photo`. -/
theorem single_name_counterexample :
    upload_file S1 id true "photo.jpg" =
      .singleFile 105 "translated_photo.jpg" ∧
    "translated_photo.jpg" ≠ "translated_" ++ (rsplitDot "photo.jpg").1 := by
  exact ⟨by decide, by decide⟩

/-- Claim C2 (amended): an unrecoverable inpainting/rendering error on ONE
image is NOT isolated: the exception aborts `process_file` for the whole
file, the upload reports a processing error, and the siblings' outputs are
discarded. -/
theorem image_error_aborts_file {Img File : Type} (S : Services Img File)
    (sf : String → String) (raw : String) (pre : List Img) (img : Img)
    (rest : List Img) (e : PErr)
    (hraw : raw ≠ "") (hallow : allowed_file raw = true)
    (hext : S.extract_images (sf raw) = .ok (pre ++ img :: rest))
    (hpre : ∀ i ∈ pre, ∃ f : File, processImage S i = .ok f)
    (himg : processImage S img = .error e) :
    process_file S (sf raw) = .error e ∧
    upload_file S sf true raw = .processingError e := by
  have hacc := processImagesAcc_append_error S pre img rest e hpre himg
  constructor
  · simp [process_file, hext, hacc]
  · simp [upload_file, upload_run, hraw, hallow, hext, hacc]

/-- Environment for the C2 counterexample: two images; image 1 has text and
rendering raises on it; image 2 has no text and would process fine. -/
def S2fail : Services Nat Nat where
  extract_images := fun _ => .ok [1, 2]
  extract_text := fun i => if i = 1 then rsW else []
  translate := fun s => some s
  remove_text := fun i _ => some (i + 10)
  render_text := fun _ _ => none
  savePNG := fun i => i

/-- Counterexample to C2 as stated: image 2 alone would succeed, but the
rendering error on image 1 fails the whole request — the sibling's output is
NOT returned. -/
theorem image_error_not_isolated_counterexample :
    processImage S2fail 2 = .ok 2 ∧
    process_file S2fail "a.png" = .error .renderFailed ∧
    upload_file S2fail id true "a.png" = .processingError .renderFailed := by
  exact ⟨rfl, rfl, by decide⟩

/-- Same environment with the failing image second, so the abort happens
after a sibling already succeeded. -/
def S2failB : Services Nat Nat where
  extract_images := fun _ => .ok [2, 1]
  extract_text := fun i => if i = 1 then rsW else []
  translate := fun s => some s
  remove_text := fun i _ => some (i + 10)
  render_text := fun _ _ => none
  savePNG := fun i => i

/-- Witness for the amended C2. -/
theorem image_error_aborts_file_witness :
    upload_file S2failB id true "a.png" = .processingError .renderFailed :=
  (image_error_aborts_file S2failB id "a.png" [2] 1 [] .renderFailed
    (by decide) (by decide) rfl
    (by intro i hi; simp at hi; subst hi; exact ⟨2, rfl⟩)
    rfl).2

/-- Claim C3 (amended): the handler never checks that the bundle is
non-empty: a request whose processing yields an empty list of processed
images receives a SUCCESS response — a ZIP with zero entries named
`translated_<stem>.zip`. -/
theorem empty_bundle_returns_empty_zip {Img File : Type} (S : Services Img File)
    (sf : String → String) (raw : String)
    (hraw : raw ≠ "") (hallow : allowed_file raw = true)
    (hok : process_file S (sf raw) = .ok []) :
    upload_file S sf true raw =
      .zipArchive [] ("translated_" ++ (rsplitDot (sf raw)).1 ++ ".zip") := by
  obtain ⟨imgs, hext, hacc2, hacc1⟩ := process_file_ok_inv S (sf raw) [] hok
  simp [upload_file, upload_run, hraw, hallow, hext, hacc2, hacc1, zipEntries]

/-- Witness for the amended C3. -/
theorem empty_bundle_returns_empty_zip_witness :
    upload_file S0 id true "scan.png" =
      .zipArchive [] ("translated_" ++ (rsplitDot (id "scan.png")).1 ++ ".zip") :=
  empty_bundle_returns_empty_zip S0 id "scan.png" (by decide) (by decide) rfl

/-- Counterexample to C3 as stated: an empty bundle does NOT terminate the
request as Failed — the response is a success carrying an empty ZIP. -/
theorem empty_bundle_success_counterexample :
    process_file S0 "photo.png" = .ok [] ∧
    upload_file S0 id true "photo.png" =
      .zipArchive [] "translated_photo.zip" := by
  exact ⟨rfl, by decide⟩

/-- Claim C8 (amended): the saved input temp file is deleted on every exit
path (the `finally:` block), and on the multi-output ZIP path every
intermediate file is deleted; but on the single-output path the processed
temp file is handed to `send_file` and never deleted, and on a
processing-error path the intermediates already created are not deleted. -/
theorem temp_cleanup_status {Img File : Type} (S : Services Img File)
    (sf : String → String) (hasFile : Bool) (raw : String) :
    (upload_run S sf hasFile raw).inputCreated =
      (upload_run S sf hasFile raw).inputDeleted ∧
    (∀ entries nm, (upload_run S sf hasFile raw).response = .zipArchive entries nm →
      (upload_run S sf hasFile raw).deletedTemps =
        (upload_run S sf hasFile raw).createdTemps) ∧
    (∀ f nm, (upload_run S sf hasFile raw).response = .singleFile f nm →
      (upload_run S sf hasFile raw).createdTemps = [f] ∧
      (upload_run S sf hasFile raw).deletedTemps = []) ∧
    (∀ e, (upload_run S sf hasFile raw).response = .processingError e →
      (upload_run S sf hasFile raw).deletedTemps = []) := by
  by_cases hf : hasFile = false
  · simp [upload_run, hf]
  · have hf2 : hasFile = true := by simpa using hf
    by_cases hr : raw = ""
    · simp [upload_run, hf2, hr]
    · by_cases ha : allowed_file raw = true
      · cases hext : S.extract_images (sf raw) with
        | error e => simp [upload_run, hf2, hr, ha, hext]
        | ok imgs =>
          cases hacc : (processImagesAcc S imgs).2 with
          | some e => simp [upload_run, hf2, hr, ha, hext, hacc]
          | none =>
            rcases hfs : (processImagesAcc S imgs).1 with _ | ⟨a, _ | ⟨b, t⟩⟩ <;>
              simp [upload_run, hf2, hr, ha, hext, hacc, hfs]
      · have ha2 : allowed_file raw = false := by simpa using ha
        simp [upload_run, hf2, hr, ha2]

/-- Witness for the amended C8 on the ZIP path. -/
theorem temp_cleanup_status_witness :
    (upload_run S2img id true "a.png").deletedTemps =
      (upload_run S2img id true "a.png").createdTemps :=
  (temp_cleanup_status S2img id true "a.png").2.1 (zipEntries [1, 2])
    ("translated_" ++ (rsplitDot (id "a.png")).1 ++ ".zip") (by decide)

/-- Counterexample to C8 as stated: on the single-output success path the
intermediate processed temp file (105) is created but never deleted. -/
theorem temp_leak_counterexample :
    (upload_run S1 id true "photo.jpg").response =
      .singleFile 105 "translated_photo.jpg" ∧
    (upload_run S1 id true "photo.jpg").createdTemps = [105] ∧
    (upload_run S1 id true "photo.jpg").deletedTemps = [] := by
  exact ⟨by decide, by decide, by decide⟩
